import Mathlib

/-!
Verification development for the `create_duckdb.py` script of the
`ladybug-smallkg-scripts` repository.

The script parses a Cypher-like schema DDL with regular expressions
(`parse_schema_cypher`), maps declared Cypher types to DuckDB types
(`map_duckdb_type`), and materializes one DuckDB table per node/edge table
from parquet files (`create_duckdb_from_parquet`).  The definitions below
are a shallow embedding of that code: the regex patterns used by the parser
are deterministic (no backtracking is ever needed for them, as every
repetition is followed by a character class disjoint from the repeated
class), so they are embedded as straight-line maximal-munch matchers.
-/

namespace SmallKG

/-! ### Character classes: Python `\w`, `\s` (ASCII fragment) -/

def isWordChar (c : Char) : Bool :=
  c.isAlphanum || c == '_'

def isSpaceChar (c : Char) : Bool :=
  c == ' ' || c == '\t' || c == '\n' || c == '\r' || c == '\x0b' || c == '\x0c'

/-- The back-quote character (U+0060) used for optional identifier quoting. -/
def backquoteChar : Char := Char.ofNat 96

/-- Match a literal pattern case-insensitively (Python `re.IGNORECASE`),
returning the remaining input on success. -/
def matchLitCI : List Char → List Char → Option (List Char)
  | [], cs => some cs
  | _ :: _, [] => none
  | p :: ps, c :: cs => if c.toLower == p.toLower then matchLitCI ps cs else none

/-- Consume an optional back-quote (the pattern fragment `` `? `` ; consuming
it when present is forced, since every continuation of the two patterns
rejects a back-quote). -/
def skipOptBackquote (cs : List Char) : List Char :=
  match cs with
  | c :: rest => if c == backquoteChar then rest else cs
  | [] => []

/-! ### The two `re.finditer` scans of `parse_schema_cypher`

Pattern 1: `CREATE NODE TABLE\s+`?(\w+)`?\s*\(([^)]+)\)`
Pattern 2: `CREATE REL TABLE\s+`?(\w+)`?\s*\(\s*FROM\s+`?(\w+)`?\s+TO\s+`?(\w+)`?([^)]*)\)`
-/

/-- Try to match the node-table pattern at the head of the input, returning
the two capture groups (table name, column list text) and the rest of the
input after the match. -/
def tryNodeAt (cs0 : List Char) : Option (String × String × List Char) :=
  match matchLitCI ("create node table".toList) cs0 with
  | none => none
  | some cs1 =>
    if (cs1.takeWhile isSpaceChar).isEmpty then none else
    let cs2 := skipOptBackquote (cs1.dropWhile isSpaceChar)
    let nm := cs2.takeWhile isWordChar
    if nm.isEmpty then none else
    let cs3 := (skipOptBackquote (cs2.dropWhile isWordChar)).dropWhile isSpaceChar
    match cs3 with
    | '(' :: cs4 =>
      let body := cs4.takeWhile (fun c => c != ')')
      if body.isEmpty then none else
      match cs4.dropWhile (fun c => c != ')') with
      | ')' :: cs5 => some (String.mk nm, String.mk body, cs5)
      | _ => none
    | _ => none

/-- Try to match the rel-table pattern at the head of the input, returning the
four capture groups (relation name, from node, to node, property list text)
and the rest of the input after the match. -/
def tryRelAt (cs0 : List Char) : Option (String × String × String × String × List Char) :=
  match matchLitCI ("create rel table".toList) cs0 with
  | none => none
  | some cs1 =>
    if (cs1.takeWhile isSpaceChar).isEmpty then none else
    let cs2 := skipOptBackquote (cs1.dropWhile isSpaceChar)
    let rel := cs2.takeWhile isWordChar
    if rel.isEmpty then none else
    let cs3 := (skipOptBackquote (cs2.dropWhile isWordChar)).dropWhile isSpaceChar
    match cs3 with
    | '(' :: cs4 =>
      match matchLitCI ("from".toList) (cs4.dropWhile isSpaceChar) with
      | none => none
      | some cs5 =>
        if (cs5.takeWhile isSpaceChar).isEmpty then none else
        let cs6 := skipOptBackquote (cs5.dropWhile isSpaceChar)
        let fromNm := cs6.takeWhile isWordChar
        if fromNm.isEmpty then none else
        let cs7 := skipOptBackquote (cs6.dropWhile isWordChar)
        if (cs7.takeWhile isSpaceChar).isEmpty then none else
        match matchLitCI ("to".toList) (cs7.dropWhile isSpaceChar) with
        | none => none
        | some cs8 =>
          if (cs8.takeWhile isSpaceChar).isEmpty then none else
          let cs9 := skipOptBackquote (cs8.dropWhile isSpaceChar)
          let toNm := cs9.takeWhile isWordChar
          if toNm.isEmpty then none else
          let cs10 := skipOptBackquote (cs9.dropWhile isWordChar)
          let props := cs10.takeWhile (fun c => c != ')')
          match cs10.dropWhile (fun c => c != ')') with
          | ')' :: cs11 =>
            some (String.mk rel, String.mk fromNm, String.mk toNm, String.mk props, cs11)
          | _ => none
    | _ => none

/-- `re.finditer` scan for the node pattern: leftmost, non-overlapping
matches.  The fuel argument is the input length; every successful match
consumes at least the 17-character keyword, so the fuel never runs out. -/
def scanNodes : Nat → List Char → List (String × String)
  | 0, _ => []
  | _ + 1, [] => []
  | fuel + 1, c :: cs =>
    match tryNodeAt (c :: cs) with
    | some (nm, body, rest) => (nm, body) :: scanNodes fuel rest
    | none => scanNodes fuel cs

/-- `re.finditer` scan for the rel pattern. -/
def scanRels : Nat → List Char → List (String × String × String × String)
  | 0, _ => []
  | _ + 1, [] => []
  | fuel + 1, c :: cs =>
    match tryRelAt (c :: cs) with
    | some (rel, f, t, props, rest) => (rel, f, t, props) :: scanRels fuel rest
    | none => scanRels fuel cs

def findNodeMatches (content : String) : List (String × String) :=
  scanNodes content.length content.toList

def findRelMatches (content : String) : List (String × String × String × String) :=
  scanRels content.length content.toList

/-! ### String primitives

Structurally recursive counterparts of the Python string operations used by
the script (`str.lower`, `str.upper`, `str.split` on a one-character
separator, `in`, `str.startswith`, `str.strip`), over the ASCII fragment the
script manipulates. -/

/-- Python `s.split(sep)` for a one-character separator. -/
def splitOnChar (sep : Char) : List Char → List (List Char)
  | [] => [[]]
  | c :: rest =>
    let r := splitOnChar sep rest
    if c == sep then [] :: r
    else
      match r with
      | [] => [[c]]
      | h :: t => (c :: h) :: t

def pyLower (s : String) : String := String.mk (s.toList.map Char.toLower)

def pyUpper (s : String) : String := String.mk (s.toList.map Char.toUpper)

def pySplit (sep : Char) (s : String) : List String :=
  (splitOnChar sep s.toList).map String.mk

def pyContainsChar (c : Char) (s : String) : Bool := s.toList.contains c

def pyStartsWith (pre s : String) : Bool := pre.toList.isPrefixOf s.toList

/-! ### Column definition parsing inside a declaration body -/

/-- Python `str.strip()` restricted to ASCII whitespace. -/
def pyStrip (s : String) : String :=
  String.mk (((s.toList.dropWhile isSpaceChar).reverse.dropWhile isSpaceChar).reverse)

/-- Substring test, Python `pat in s`. -/
def hasSubstr (pat : List Char) : List Char → Bool
  | [] => pat.isEmpty
  | c :: cs => pat.isPrefixOf (c :: cs) || hasSubstr pat cs

/-- The per-column match ``re.match(r"`?(\w+)`?\s+(\w+)", col_def)``,
returning the captured column name and declared type. -/
def colDefMatch (s : String) : Option (String × String) :=
  let cs0 := skipOptBackquote s.toList
  let nm := cs0.takeWhile isWordChar
  if nm.isEmpty then none else
  let cs1 := skipOptBackquote (cs0.dropWhile isWordChar)
  if (cs1.takeWhile isSpaceChar).isEmpty then none else
  let ty := (cs1.dropWhile isSpaceChar).takeWhile isWordChar
  if ty.isEmpty then none else some (String.mk nm, String.mk ty)

/-- `'PRIMARY KEY' in col_def.upper()`. -/
def containsPK (s : String) : Bool :=
  hasSubstr ("PRIMARY KEY".toList) (pyUpper s).toList

structure NodeSpec where
  columns : List (String × String)
  pkCol : String
deriving DecidableEq

structure EdgeSpec where
  fromNode : String
  toNode : String
  columns : List (String × String)
deriving DecidableEq

/-- The node-table column loop: split the body on commas, strip each piece,
keep the pieces matching the column pattern, and remember the last column
whose definition text contains `PRIMARY KEY` (case-insensitively). -/
def parseNodeCols (body : String) : List (String × String) × Option String :=
  (pySplit ',' body).foldl
    (fun acc part =>
      let cd := pyStrip part
      match colDefMatch cd with
      | some (nm, ty) =>
        (acc.1 ++ [(nm, ty)], if containsPK cd then some nm else acc.2)
      | none => acc)
    ([], none)

/-- Assemble a `NodeSpec`: `pk_col or (columns[0][0] if columns else 'id')`. -/
def mkNodeSpec (body : String) : NodeSpec :=
  let r := parseNodeCols body
  { columns := r.1
    pkCol := r.2.getD (match r.1 with | (n, _) :: _ => n | [] => "id") }

/-- The rel-table property-column loop (skips empty pieces explicitly). -/
def parseEdgeCols (props : String) : List (String × String) :=
  (pySplit ',' props).foldl
    (fun acc part =>
      let cd := pyStrip part
      if cd.isEmpty then acc else
      match colDefMatch cd with
      | some (nm, ty) => acc ++ [(nm, ty)]
      | none => acc)
    []

/-- Assemble an `EdgeSpec` from the four capture groups of a rel match. -/
def mkEdgeSpec (q : String × String × String) : EdgeSpec :=
  { fromNode := q.1, toNode := q.2.1, columns := parseEdgeCols q.2.2 }

/-! ### Python `dict` semantics for the two result mappings -/

/-- `d[k] = v` on a Python dict rendered as an insertion-ordered association
list: overwrite in place when the key is present, append otherwise. -/
def updateA (m : List (String × α)) (k : String) (v : α) : List (String × α) :=
  if m.any (fun p => p.1 == k) then
    m.map (fun p => if p.1 == k then (k, v) else p)
  else m ++ [(k, v)]

def lookupA (m : List (String × α)) (k : String) : Option α :=
  (m.find? (fun p => p.1 == k)).map (fun p => p.2)

/-- Number of entries of the association list carrying the given key. -/
def countKey (m : List (String × α)) (k : String) : Nat :=
  (m.filter (fun p => p.1 == k)).length

def buildNodeTables (ms : List (String × String)) : List (String × NodeSpec) :=
  ms.foldl (fun m q => updateA m q.1 (mkNodeSpec q.2)) []

def buildEdgeTables (ms : List (String × String × String × String)) :
    List (String × EdgeSpec) :=
  ms.foldl (fun m q => updateA m q.1 (mkEdgeSpec q.2)) []

/-- `parse_schema_cypher`, acting on the DDL text (the script reads the text
from a file first; file access is outside the embedding). -/
def parse_schema_cypher (content : String) :
    List (String × NodeSpec) × List (String × EdgeSpec) :=
  (buildNodeTables (findNodeMatches content), buildEdgeTables (findRelMatches content))

/-! ### `map_duckdb_type` -/

def typeMap : List (String × String) :=
  [("INT64", "BIGINT"), ("INT32", "INTEGER"), ("INT16", "SMALLINT"),
   ("INT8", "TINYINT"), ("UINT64", "UBIGINT"), ("UINT32", "UINTEGER"),
   ("UINT16", "USMALLINT"), ("UINT8", "UTINYINT"), ("DOUBLE", "DOUBLE"),
   ("FLOAT", "FLOAT"), ("BOOL", "BOOLEAN"), ("STRING", "VARCHAR"),
   ("DATE", "DATE"), ("TIMESTAMP", "TIMESTAMP"), ("TIME", "TIME"),
   ("BLOB", "BLOB"), ("JSON", "VARCHAR")]

/-- `type_map.get(cypher_type, 'VARCHAR')`. -/
def map_duckdb_type (t : String) : String :=
  ((typeMap.find? (fun p => p.1 == t)).map (fun p => p.2)).getD "VARCHAR"

/-! ### `create_duckdb_from_parquet`: column reconciliation -/

/-- `col.split('.')[-1] if '.' in col else col`. -/
def baseName (col : String) : String :=
  if pyContainsChar '.' col then (pySplit '.' col).getLastD col else col

/-- `col.split('.')[0] if '.' in col else ''`. -/
def colQual (col : String) : String :=
  if pyContainsChar '.' col then (pySplit '.' col).headD "" else ""

/-- The inner `for schema_col_name, schema_col_type in schema['columns']`
loop with its `break`: the first case-insensitive name match wins, the
default is `'VARCHAR'`. -/
def lookupDeclType (schemaCols : List (String × String)) (base : String) : String :=
  match schemaCols.find? (fun p => pyLower p.1 == pyLower base) with
  | some p => map_duckdb_type p.2
  | none => "VARCHAR"

/-- The node-table loop over the parquet columns, accumulating
`(col_defs, col_names)`. -/
def nodeColInfo (schemaCols : List (String × String)) (pcols : List String) :
    List String × List String :=
  pcols.foldl
    (fun acc col =>
      let b := baseName col
      (acc.1 ++ ["\"" ++ b ++ "\" " ++ lookupDeclType schemaCols b], acc.2 ++ [b]))
    ([], [])

/-- The edge-table loop over the parquet columns: it starts from the fixed
`source`/`target` BIGINT columns and skips every column whose base name
lower-cases to `id`. -/
def edgeColInfo (schemaCols : List (String × String)) (pcols : List String) :
    List String × List String :=
  pcols.foldl
    (fun acc col =>
      let b := baseName col
      if pyLower b == "id" then acc
      else
        (acc.1 ++ ["\"" ++ b ++ "\" " ++ lookupDeclType schemaCols b], acc.2 ++ [b]))
    (["\"source\" BIGINT", "\"target\" BIGINT"], ["source", "target"])

/-- One entry of the edge-table SELECT list: an `id` column is aliased to
`source` when its qualifier is `a` and to `target` when it is `b`, and is
passed through verbatim otherwise; every non-`id` column is passed through
verbatim (the insert-column list holds its stripped base name). -/
def edgeSelectPart (col : String) : String :=
  let b := baseName col
  if pyLower b == "id" then
    let q := colQual col
    if q == "a" then "\"" ++ col ++ "\" AS source"
    else if q == "b" then "\"" ++ col ++ "\" AS target"
    else "\"" ++ col ++ "\""
  else "\"" ++ col ++ "\""

/-- The edge-table SELECT-list loop. -/
def edgeSelectParts (pcols : List String) : List String :=
  pcols.foldl (fun acc col => acc ++ [edgeSelectPart col]) []

/-! ### Generated SQL text -/

def joinComma : List String → String
  | [] => ""
  | [x] => x
  | x :: y :: rest => x ++ ", " ++ joinComma (y :: rest)

def quoteCol (c : String) : String := "\"" ++ c ++ "\""

def nodeCreateSQL (name : String) (colDefs : List String) : String :=
  "CREATE TABLE nodes_" ++ name ++ " (" ++ joinComma colDefs ++ ");"

def nodeInsertSQL (path name : String) (colNames pcols : List String) : String :=
  "INSERT INTO nodes_" ++ name ++ " (" ++ joinComma (colNames.map quoteCol) ++
  ") SELECT " ++ joinComma (pcols.map quoteCol) ++
  " FROM read_parquet('" ++ path ++ "')"

def edgeCreateSQL (rel : String) (colDefs : List String) : String :=
  "CREATE TABLE edges_" ++ rel ++ " (" ++ joinComma colDefs ++ ");"

def edgeInsertSQL (path rel : String) (colNames selParts : List String) : String :=
  "INSERT INTO edges_" ++ rel ++ " (" ++ joinComma (colNames.map quoteCol) ++
  ") SELECT " ++ joinComma selParts ++
  " FROM read_parquet('" ++ path ++ "')"

/-! ### The reset step

The script drops six hard-coded `nodes_*` tables with `DROP TABLE IF
EXISTS`, then enumerates the remaining tables with `SHOW TABLES` and drops
every one whose name starts with `edges_`.  The destination is modelled by
the list of its table names; `resetStep` returns the tables left after the
reset. -/

def hardcodedNodeDrops : List String :=
  ["nodes_Place", "nodes_Event", "nodes_Concept", "nodes_KnowledgeGraph",
   "nodes_Organization", "nodes_Person"]

def dropIfExists (tables : List String) (t : String) : List String :=
  tables.filter (fun x => x != t)

def resetStep (tables : List String) : List String :=
  let afterNodes := hardcodedNodeDrops.foldl dropIfExists tables
  afterNodes.foldl
    (fun acc t => if pyStartsWith "edges_" t then dropIfExists acc t else acc)
    afterNodes

/-! ### The per-table materialization run

The parquet directory is modelled by an association list from file name to
the file's column names; a statement execution that raises in Python is
modelled by the `failsOn` predicate, and an uncaught exception by
`Except.error` carrying the failing statement. -/

abbrev FileSys : Type := List (String × List String)

def lookupFile (files : FileSys) (fname : String) : Option (List String) :=
  (files.find? (fun p => p.1 == fname)).map (fun p => p.2)

inductive MatEvent where
  | createdNode (name : String) (pcols : List String)
  | warnNode (name : String)
  | createdEdge (rel : String) (fname : String) (pcols : List String)
  | warnEdge (rel : String)
deriving DecidableEq

/-- Locate the backing file of an edge table: first
`<rel>_<from>_<to>.parquet`, then `<rel>.parquet`. -/
def edgeFileName (rel : String) (spec : EdgeSpec) (files : FileSys) :
    Option (String × List String) :=
  let f1 := rel ++ "_" ++ spec.fromNode ++ "_" ++ spec.toNode ++ ".parquet"
  match lookupFile files f1 with
  | some cs => some (f1, cs)
  | none =>
    let f2 := rel ++ ".parquet"
    match lookupFile files f2 with
    | some cs => some (f2, cs)
    | none => none

/-- One iteration of the node-table loop: skip with a warning when the file
is missing, otherwise execute the create and insert statements (an
execution failure raises). -/
def runNodeTable (dir : String) (files : FileSys) (failsOn : String → Bool)
    (p : String × NodeSpec) : Except String MatEvent :=
  match lookupFile files (p.1 ++ ".parquet") with
  | none => Except.ok (MatEvent.warnNode p.1)
  | some cs =>
    let info := nodeColInfo p.2.columns cs
    let c := nodeCreateSQL p.1 info.1
    let i := nodeInsertSQL (dir ++ "/" ++ p.1 ++ ".parquet") p.1 info.2 cs
    if failsOn c then Except.error c
    else if failsOn i then Except.error i
    else Except.ok (MatEvent.createdNode p.1 cs)

/-- One iteration of the edge-table loop. -/
def runEdgeTable (dir : String) (files : FileSys) (failsOn : String → Bool)
    (p : String × EdgeSpec) : Except String MatEvent :=
  match edgeFileName p.1 p.2 files with
  | none => Except.ok (MatEvent.warnEdge p.1)
  | some (fn, cs) =>
    let info := edgeColInfo p.2.columns cs
    let c := edgeCreateSQL p.1 info.1
    let i := edgeInsertSQL (dir ++ "/" ++ fn) p.1 info.2 (edgeSelectParts cs)
    if failsOn c then Except.error c
    else if failsOn i then Except.error i
    else Except.ok (MatEvent.createdEdge p.1 fn cs)

/-- Sequential processing with exception propagation: the first failure
aborts the whole remaining run, as an uncaught Python exception does. -/
def runList (f : α → Except String β) : List α → Except String (List β)
  | [] => Except.ok []
  | x :: xs =>
    match f x with
    | Except.error e => Except.error e
    | Except.ok b =>
      match runList f xs with
      | Except.error e => Except.error e
      | Except.ok bs => Except.ok (b :: bs)

/-- The table-materialization part of `create_duckdb_from_parquet`: all node
tables in order, then all edge tables in order. -/
def runMaterializer (dir : String) (files : FileSys) (failsOn : String → Bool)
    (nts : List (String × NodeSpec)) (ets : List (String × EdgeSpec)) :
    Except String (List MatEvent) :=
  match runList (runNodeTable dir files failsOn) nts with
  | Except.error e => Except.error e
  | Except.ok ne =>
    match runList (runEdgeTable dir files failsOn) ets with
    | Except.error e => Except.error e
    | Except.ok ee => Except.ok (ne ++ ee)

/-- The outcome of one node table when no statement execution fails. -/
def nodeOutcome (files : FileSys) (p : String × NodeSpec) : MatEvent :=
  match lookupFile files (p.1 ++ ".parquet") with
  | none => MatEvent.warnNode p.1
  | some cs => MatEvent.createdNode p.1 cs

/-- The outcome of one edge table when no statement execution fails. -/
def edgeOutcome (files : FileSys) (p : String × EdgeSpec) : MatEvent :=
  match edgeFileName p.1 p.2 files with
  | none => MatEvent.warnEdge p.1
  | some (fn, cs) => MatEvent.createdEdge p.1 fn cs

/-! ### Fold characterizations of the column loops -/

/-- The column definition text emitted for one parquet column. -/
def colDefText (schemaCols : List (String × String)) (c : String) : String :=
  "\"" ++ baseName c ++ "\" " ++ lookupDeclType schemaCols (baseName c)

/-- A parquet column of an edge table is kept as a property column exactly
when its base name does not lower-case to `id`. -/
def edgeKeep (c : String) : Bool :=
  !(pyLower (baseName c) == "id")

theorem foldl_snoc_map (f : α → β) :
    ∀ (l : List α) (acc : List β),
      l.foldl (fun a c => a ++ [f c]) acc = acc ++ l.map f := by
  intro l
  induction l with
  | nil => intro acc; simp
  | cons c cs ih => intro acc; simp [ih]

theorem nodeColInfo_go (sc : List (String × String)) :
    ∀ (cs : List String) (acc : List String × List String),
      cs.foldl
        (fun acc col =>
          let b := baseName col
          (acc.1 ++ ["\"" ++ b ++ "\" " ++ lookupDeclType sc b], acc.2 ++ [b])) acc
      = (acc.1 ++ cs.map (colDefText sc), acc.2 ++ cs.map baseName) := by
  intro cs
  induction cs with
  | nil => intro acc; simp
  | cons c rest ih => intro acc; simp [ih, colDefText]

theorem nodeColInfo_eq (sc : List (String × String)) (cs : List String) :
    nodeColInfo sc cs = (cs.map (colDefText sc), cs.map baseName) := by
  have h := nodeColInfo_go sc cs ([], [])
  simpa [nodeColInfo] using h

theorem edgeColInfo_go (sc : List (String × String)) :
    ∀ (cs : List String) (acc : List String × List String),
      cs.foldl
        (fun acc col =>
          let b := baseName col
          if pyLower b == "id" then acc
          else (acc.1 ++ ["\"" ++ b ++ "\" " ++ lookupDeclType sc b], acc.2 ++ [b])) acc
      = (acc.1 ++ (cs.filter edgeKeep).map (colDefText sc),
         acc.2 ++ (cs.filter edgeKeep).map baseName) := by
  intro cs
  induction cs with
  | nil => intro acc; simp
  | cons c rest ih =>
    intro acc
    rw [List.foldl_cons, ih]
    by_cases hid : (pyLower (baseName c) == "id") = true
    · have hkeep : edgeKeep c = false := by simp [edgeKeep, hid]
      simp [hid, hkeep, List.filter_cons]
    · have hkeep : edgeKeep c = true := by
        simp only [edgeKeep, Bool.not_eq_true']
        simpa using hid
      simp [hid, hkeep, List.filter_cons, colDefText]

theorem edgeColInfo_eq (sc : List (String × String)) (cs : List String) :
    edgeColInfo sc cs
      = (["\"source\" BIGINT", "\"target\" BIGINT"] ++ (cs.filter edgeKeep).map (colDefText sc),
         ["source", "target"] ++ (cs.filter edgeKeep).map baseName) := by
  have h := edgeColInfo_go sc cs (["\"source\" BIGINT", "\"target\" BIGINT"], ["source", "target"])
  simpa [edgeColInfo] using h

theorem edgeSelectParts_eq (cs : List String) :
    edgeSelectParts cs = cs.map edgeSelectPart := by
  have h := foldl_snoc_map edgeSelectPart cs []
  simpa [edgeSelectParts] using h

theorem length_filter_edgeKeep (cs : List String) :
    cs.length
      = (cs.filter edgeKeep).length + cs.countP (fun c => pyLower (baseName c) == "id") := by
  have h := List.length_eq_countP_add_countP (fun c => pyLower (baseName c) == "id") cs
  have h2 : cs.countP (fun a => decide ¬(pyLower (baseName a) == "id") = true)
      = cs.countP edgeKeep := by
    apply List.countP_congr
    intro a _
    by_cases hid : (pyLower (baseName a) == "id") = true
    · simp [hid, edgeKeep]
    · simp [hid, edgeKeep]
  rw [List.countP_eq_length_filter edgeKeep] at h2
  omega


/-! ### Association-list lemmas for the Python dict semantics -/

theorem lookupA_updateA_self (m : List (String × α)) (k : String) (v : α) :
    lookupA (updateA m k v) k = some v := by
  unfold updateA
  by_cases hany : (m.any fun p => p.1 == k) = true
  · rw [if_pos hany]
    unfold lookupA
    induction m with
    | nil => simp at hany
    | cons p rest ih =>
      by_cases hpk : (p.1 == k) = true
      · have hkk : ((k, v).1 == k) = true := by simp
        simp only [List.map_cons, if_pos hpk, List.find?_cons, hkk]
        simp
      · have hrest : (rest.any fun p => p.1 == k) = true := by
          simp only [List.any_cons, hpk, Bool.false_or] at hany
          exact hany
        have hpk' : (p.1 == k) = false := by simpa using hpk
        simp only [List.map_cons, if_neg hpk]
        simp only [List.find?_cons, hpk']
        exact ih hrest
  · rw [if_neg hany]
    unfold lookupA
    have hnone : List.find? (fun p => p.1 == k) m = none := by
      rw [List.find?_eq_none]
      intro x hx hc
      exact hany (List.any_eq_true.mpr ⟨x, hx, hc⟩)
    rw [List.find?_append, hnone]
    simp

theorem lookupA_updateA_ne (m : List (String × α)) (k : String) (v : α) (n : String)
    (hkn : k ≠ n) : lookupA (updateA m k v) n = lookupA m n := by
  unfold updateA
  by_cases hany : (m.any fun p => p.1 == k) = true
  · rw [if_pos hany]
    unfold lookupA
    clear hany
    induction m with
    | nil => simp
    | cons p rest ih =>
      by_cases hpk : (p.1 == k) = true
      · have hp : p.1 = k := by simpa using hpk
        have h1 : ((k, v).1 == n) = false := by simpa using hkn
        have h2 : (p.1 == n) = false := by rw [hp]; simpa using hkn
        simp only [List.map_cons, if_pos hpk, List.find?_cons, h1, h2]
        exact ih
      · simp only [List.map_cons, if_neg hpk]
        by_cases hpn : (p.1 == n) = true
        · simp only [List.find?_cons, hpn]
        · have hpn' : (p.1 == n) = false := by simpa using hpn
          simp only [List.find?_cons, hpn']
          exact ih
  · rw [if_neg hany]
    unfold lookupA
    rw [List.find?_append]
    have h2 : List.find? (fun p => p.1 == n) [(k, v)] = none := by
      have hkn' : (k == n) = false := by simpa using hkn
      simp [List.find?_cons, hkn']
    rw [h2]
    simp


/-- The generic dict-building fold shared by `buildNodeTables` and
`buildEdgeTables`. -/
def foldlUpd (key : σ → String) (g : σ → α) (ms : List σ) (m : List (String × α)) :
    List (String × α) :=
  ms.foldl (fun acc q => updateA acc (key q) (g q)) m

theorem lookupA_foldlUpd_nomatch (key : σ → String) (g : σ → α) :
    ∀ (ms : List σ) (m : List (String × α)) (n : String),
      ms.filter (fun q => key q == n) = [] →
      lookupA (foldlUpd key g ms m) n = lookupA m n := by
  intro ms
  induction ms with
  | nil => intro m n _; rfl
  | cons q rest ih =>
    intro m n h
    cases hq : (key q == n) with
    | true => simp [List.filter_cons, hq] at h
    | false =>
      simp only [List.filter_cons, hq, Bool.false_eq_true, if_false] at h
      have step : foldlUpd key g (q :: rest) m
          = foldlUpd key g rest (updateA m (key q) (g q)) := rfl
      rw [step, ih _ n h, lookupA_updateA_ne]
      simpa using hq

theorem lookupA_foldlUpd_last (key : σ → String) (g : σ → α) :
    ∀ (ms : List σ) (m : List (String × α)) (n : String) (q0 : σ),
      (ms.filter (fun q => key q == n)).getLast? = some q0 →
      lookupA (foldlUpd key g ms m) n = some (g q0) := by
  intro ms
  induction ms with
  | nil => intro m n q0 h; simp at h
  | cons q rest ih =>
    intro m n q0 h
    have step : foldlUpd key g (q :: rest) m
        = foldlUpd key g rest (updateA m (key q) (g q)) := rfl
    cases hq : (key q == n) with
    | false =>
      simp only [List.filter_cons, hq, Bool.false_eq_true, if_false] at h
      rw [step, ih _ n q0 h]
    | true =>
      simp only [List.filter_cons, hq, if_true] at h
      cases hrest : rest.filter (fun q => key q == n) with
      | nil =>
        rw [hrest, List.getLast?_singleton] at h
        have hq0 : q0 = q := by
          injection h with h'
          exact h'.symm
        have hkq : key q = n := by simpa using hq
        rw [step, lookupA_foldlUpd_nomatch key g rest _ n hrest, hq0, ← hkq,
            lookupA_updateA_self]
      | cons q' l =>
        rw [hrest, List.getLast?_cons_cons] at h
        rw [step]
        exact ih _ n q0 (by rw [hrest]; exact h)

theorem countKey_updateA_le (m : List (String × α)) (k : String) (v : α)
    (h : ∀ j, countKey m j ≤ 1) : ∀ j, countKey (updateA m k v) j ≤ 1 := by
  intro j
  unfold updateA countKey
  by_cases hany : (m.any fun p => p.1 == k) = true
  · rw [if_pos hany]
    have heq : ((m.map fun p => if (p.1 == k) = true then (k, v) else p).filter
        (fun p => p.1 == j)).length = (m.filter (fun p => p.1 == j)).length := by
      rw [← List.countP_eq_length_filter, ← List.countP_eq_length_filter,
          List.countP_map]
      apply List.countP_congr
      intro p _
      by_cases hpk : (p.1 == k) = true
      · have hp : p.1 = k := by simpa using hpk
        simp [Function.comp, hpk, hp]
      · simp [Function.comp, hpk]
    rw [heq]
    exact h j
  · rw [if_neg hany]
    rw [List.filter_append, List.length_append]
    by_cases hkj : (k == j) = true
    · have hm : (m.filter fun p => p.1 == j).length = 0 := by
        have hj : k = j := by simpa using hkj
        rw [List.length_eq_zero, List.filter_eq_nil_iff]
        intro p hp hc
        apply hany
        apply List.any_eq_true.mpr
        refine ⟨p, hp, ?_⟩
        have hpj : p.1 = j := by simpa using hc
        rw [← hj] at hpj
        simpa using hpj
      simp [hm, List.filter_cons, hkj]
    · have hne : ((k, v).1 == j) = false := by simpa using hkj
      simp [List.filter_cons, hne]
      exact h j

theorem countKey_foldlUpd_le (key : σ → String) (g : σ → α) :
    ∀ (ms : List σ) (m : List (String × α)), (∀ j, countKey m j ≤ 1) →
      ∀ j, countKey (foldlUpd key g ms m) j ≤ 1 := by
  intro ms
  induction ms with
  | nil => intro m h j; exact h j
  | cons q rest ih =>
    intro m h j
    have step : foldlUpd key g (q :: rest) m
        = foldlUpd key g rest (updateA m (key q) (g q)) := rfl
    rw [step]
    exact ih _ (countKey_updateA_le m (key q) (g q) h) j

theorem countKey_pos_of_lookupA (m : List (String × α)) (n : String)
    (h : (lookupA m n).isSome = true) : 1 ≤ countKey m n := by
  unfold lookupA at h
  have h2 : (List.find? (fun p => p.1 == n) m).isSome = true := by
    cases hf : List.find? (fun p => p.1 == n) m with
    | none => rw [hf] at h; simp at h
    | some x => rfl
  obtain ⟨x, hx, hpx⟩ := List.find?_isSome.mp h2
  unfold countKey
  have hmem : x ∈ m.filter (fun p => p.1 == n) := List.mem_filter.mpr ⟨hx, hpx⟩
  have hne : m.filter (fun p => p.1 == n) ≠ [] := by
    intro hnil
    rw [hnil] at hmem
    simp at hmem
  have hpos := List.length_pos.mpr hne
  omega

theorem lookupA_foldlUpd_isSome (key : σ → String) (g : σ → α)
    (ms : List σ) (n : String) :
    (lookupA (foldlUpd key g ms []) n).isSome = true ↔ ∃ q ∈ ms, key q = n := by
  constructor
  · intro h
    by_contra hno
    have hfil : ms.filter (fun q => key q == n) = [] := by
      rw [List.filter_eq_nil_iff]
      intro q hq hc
      exact hno ⟨q, hq, by simpa using hc⟩
    rw [lookupA_foldlUpd_nomatch key g ms [] n hfil] at h
    simp [lookupA] at h
  · intro hex
    obtain ⟨q, hq, hkey⟩ := hex
    have hfil : ms.filter (fun q => key q == n) ≠ [] := by
      intro hnil
      have hmem : q ∈ ms.filter (fun q => key q == n) :=
        List.mem_filter.mpr ⟨hq, by simpa using hkey⟩
      rw [hnil] at hmem
      simp at hmem
    obtain ⟨q0, hq0⟩ := Option.isSome_iff_exists.mp (List.getLast?_isSome.mpr hfil)
    rw [lookupA_foldlUpd_last key g ms [] n q0 hq0]
    rfl

/-! ### Reset-step lemmas -/

theorem foldl_dropIfExists :
    ∀ (ks tables : List String),
      ks.foldl dropIfExists tables = tables.filter (fun x => !(ks.contains x)) := by
  intro ks
  induction ks with
  | nil => intro tables; simp
  | cons k rest ih =>
    intro tables
    rw [List.foldl_cons, ih]
    unfold dropIfExists
    rw [List.filter_filter]
    apply List.filter_congr
    intro x _
    by_cases hxeq : x = k
    · subst hxeq
      simp [List.contains_cons]
    · simp [List.contains_cons, hxeq, Bool.and_comm]

theorem foldl_dropStarts (p : String → Bool) :
    ∀ (shown acc : List String),
      shown.foldl (fun a t => if p t then dropIfExists a t else a) acc
        = acc.filter (fun x => !(p x && shown.contains x)) := by
  intro shown
  induction shown with
  | nil => intro acc; simp
  | cons t ts ih =>
    intro acc
    rw [List.foldl_cons]
    show List.foldl _ (if p t then dropIfExists acc t else acc) ts = _
    by_cases hpt : p t = true
    · rw [if_pos hpt, ih]
      unfold dropIfExists
      rw [List.filter_filter]
      apply List.filter_congr
      intro x _
      by_cases hxeq : x = t
      · subst hxeq
        simp [List.contains_cons, hpt]
      · simp [List.contains_cons, hxeq]
    · rw [if_neg hpt, ih]
      apply List.filter_congr
      intro x _
      by_cases hxeq : x = t
      · subst hxeq
        have hpx : p x = false := by simpa using hpt
        simp [List.contains_cons, hpx]
      · simp [List.contains_cons, hxeq]

theorem resetStep_eq (tables : List String) :
    resetStep tables
      = tables.filter
          (fun t => !(pyStartsWith "edges_" t) && !(hardcodedNodeDrops.contains t)) := by
  unfold resetStep
  rw [foldl_dropIfExists, foldl_dropStarts, List.filter_filter]
  apply List.filter_congr
  intro x hx
  by_cases hA : (!(hardcodedNodeDrops.contains x)) = true
  · have hmem : x ∈ tables.filter (fun x => !(hardcodedNodeDrops.contains x)) :=
      List.mem_filter.mpr ⟨hx, hA⟩
    have hni : x ∉ hardcodedNodeDrops := by simpa using hA
    have hcont : (tables.filter
        (fun x => !(hardcodedNodeDrops.contains x))).contains x = true := by
      simp [hx, hni]
    rw [hcont, hA]
    simp
  · have hA' : (!(hardcodedNodeDrops.contains x)) = false := by simpa using hA
    rw [hA']
    simp

/-! ### Run-model lemmas -/

theorem runList_ok (f : α → Except String β) (g : α → β)
    (h : ∀ x, f x = Except.ok (g x)) :
    ∀ l : List α, runList f l = Except.ok (l.map g) := by
  intro l
  induction l with
  | nil => rfl
  | cons x xs ih => simp [runList, h x, ih]

theorem runList_ok_of_no_error (f : α → Except String β) :
    ∀ l : List α, (∀ q ∈ l, ∀ s, f q ≠ Except.error s) →
      ∃ bs, runList f l = Except.ok bs := by
  intro l
  induction l with
  | nil => intro _; exact ⟨[], rfl⟩
  | cons q rest ih =>
    intro h
    cases hq : f q with
    | error s => exact absurd hq (h q (List.mem_cons_self q rest) s)
    | ok b =>
      obtain ⟨bs, hbs⟩ := ih (fun q2 hq2 s => h q2 (List.mem_cons_of_mem q hq2) s)
      refine ⟨b :: bs, ?_⟩
      unfold runList
      rw [hq, hbs]

theorem runList_error_at (f : α → Except String β) :
    ∀ (l1 : List α) (x : α) (l2 : List α) (e : String),
      (∀ q ∈ l1, ∀ s, f q ≠ Except.error s) →
      f x = Except.error e →
      runList f (l1 ++ x :: l2) = Except.error e := by
  intro l1
  induction l1 with
  | nil =>
    intro x l2 e _ hx
    show runList f (x :: l2) = Except.error e
    unfold runList
    rw [hx]
  | cons q rest ih =>
    intro x l2 e hok hx
    cases hq : f q with
    | error s => exact absurd hq (hok q (List.mem_cons_self q rest) s)
    | ok b =>
      show runList f (q :: (rest ++ x :: l2)) = Except.error e
      unfold runList
      rw [hq, ih x l2 e (fun q2 hq2 s => hok q2 (List.mem_cons_of_mem q hq2) s) hx]

theorem runNodeTable_ok (dir : String) (files : FileSys) (failsOn : String → Bool)
    (hok : ∀ s, failsOn s = false) (p : String × NodeSpec) :
    runNodeTable dir files failsOn p = Except.ok (nodeOutcome files p) := by
  unfold runNodeTable nodeOutcome
  cases lookupFile files (p.1 ++ ".parquet") with
  | none => rfl
  | some cs => simp [hok]

theorem runEdgeTable_ok (dir : String) (files : FileSys) (failsOn : String → Bool)
    (hok : ∀ s, failsOn s = false) (p : String × EdgeSpec) :
    runEdgeTable dir files failsOn p = Except.ok (edgeOutcome files p) := by
  unfold runEdgeTable edgeOutcome
  cases edgeFileName p.1 p.2 files with
  | none => rfl
  | some fc =>
    cases fc with
    | mk fn cs => simp [hok]

theorem runMaterializer_ok (dir : String) (files : FileSys) (failsOn : String → Bool)
    (nts : List (String × NodeSpec)) (ets : List (String × EdgeSpec))
    (hok : ∀ s, failsOn s = false) :
    runMaterializer dir files failsOn nts ets
      = Except.ok (nts.map (nodeOutcome files) ++ ets.map (edgeOutcome files)) := by
  unfold runMaterializer
  rw [runList_ok (runNodeTable dir files failsOn) (nodeOutcome files)
        (fun p => runNodeTable_ok dir files failsOn hok p) nts,
      runList_ok (runEdgeTable dir files failsOn) (edgeOutcome files)
        (fun p => runEdgeTable_ok dir files failsOn hok p) ets]

theorem assoc_nodup_value_eq {β : Type} :
    ∀ (l : List (String × β)), (l.map Prod.fst).Nodup →
      ∀ a b c, (a, b) ∈ l → (a, c) ∈ l → b = c := by
  intro l
  induction l with
  | nil => intro _ a b c h _; simp at h
  | cons p rest ih =>
    intro hnd a b c hb hc
    rw [List.map_cons, List.nodup_cons] at hnd
    obtain ⟨hnotin, hnd'⟩ := hnd
    cases List.mem_cons.mp hb with
    | inl hb' =>
      cases List.mem_cons.mp hc with
      | inl hc' =>
        rw [← hb'] at hc'
        injection hc' with h1 h2
        exact h2.symm
      | inr hc' =>
        exfalso
        apply hnotin
        rw [← hb']
        simpa using List.mem_map_of_mem Prod.fst hc'
    | inr hb' =>
      cases List.mem_cons.mp hc with
      | inl hc' =>
        exfalso
        apply hnotin
        rw [← hc']
        simpa using List.mem_map_of_mem Prod.fst hb'
      | inr hc' => exact ih hnd' a b c hb' hc'

/-! ### Claim theorems -/

/-- C4: the type-mapping function is total: for every input string it returns
a result without error; it returns exactly the documented physical type for
each of the fixed vocabulary keys, and returns `VARCHAR` for every input not
in the table (e.g. `map_duckdb_type "ENUM"`). -/
theorem c4_map_duckdb_type_table :
    (∀ t : String, t ∉ typeMap.map Prod.fst → map_duckdb_type t = "VARCHAR") ∧
    map_duckdb_type "INT64" = "BIGINT" ∧ map_duckdb_type "INT32" = "INTEGER" ∧
    map_duckdb_type "INT16" = "SMALLINT" ∧ map_duckdb_type "INT8" = "TINYINT" ∧
    map_duckdb_type "UINT64" = "UBIGINT" ∧ map_duckdb_type "UINT32" = "UINTEGER" ∧
    map_duckdb_type "UINT16" = "USMALLINT" ∧ map_duckdb_type "UINT8" = "UTINYINT" ∧
    map_duckdb_type "DOUBLE" = "DOUBLE" ∧ map_duckdb_type "FLOAT" = "FLOAT" ∧
    map_duckdb_type "BOOL" = "BOOLEAN" ∧ map_duckdb_type "STRING" = "VARCHAR" ∧
    map_duckdb_type "DATE" = "DATE" ∧ map_duckdb_type "TIMESTAMP" = "TIMESTAMP" ∧
    map_duckdb_type "TIME" = "TIME" ∧ map_duckdb_type "BLOB" = "BLOB" ∧
    map_duckdb_type "JSON" = "VARCHAR" ∧ map_duckdb_type "ENUM" = "VARCHAR" := by
  refine ⟨?_, ?_, ?_, ?_, ?_, ?_, ?_, ?_, ?_, ?_, ?_, ?_, ?_, ?_, ?_, ?_, ?_, ?_, ?_⟩
  · intro t ht
    unfold map_duckdb_type
    have hnone : typeMap.find? (fun p => p.1 == t) = none := by
      rw [List.find?_eq_none]
      intro p hp hc
      apply ht
      have hpt : p.1 = t := by simpa using hc
      rw [← hpt]
      exact List.mem_map_of_mem Prod.fst hp
    rw [hnone]
    rfl
  all_goals decide

/-- C4 witness: the hypothesis of the unknown-input clause is satisfiable,
e.g. at the input `ENUM`, which indeed maps to `VARCHAR`. -/
theorem c4_witness :
    "ENUM" ∉ typeMap.map Prod.fst ∧ map_duckdb_type "ENUM" = "VARCHAR" :=
  ⟨by decide, c4_map_duckdb_type_table.1 "ENUM" (by decide)⟩

/-- C3: for every edge table with an existing backing file, the created
output table's first two columns are always named `source` and `target`,
both with type `BIGINT`, regardless of what columns the DDL declared for
the relationship. -/
theorem c3_edge_source_target_first (files : FileSys) (rel fname : String)
    (spec : EdgeSpec) (cs : List String)
    (hfile : edgeFileName rel spec files = some (fname, cs)) :
    (edgeColInfo spec.columns cs).1.take 2 = ["\"source\" BIGINT", "\"target\" BIGINT"] ∧
    (edgeColInfo spec.columns cs).2.take 2 = ["source", "target"] := by
  rw [edgeColInfo_eq]
  constructor <;> rfl

/-- C3 witness: a concrete edge table whose backing file exists. -/
theorem c3_witness :
    edgeFileName "Knows" ⟨"Person", "Person", [("since", "DATE")]⟩
        [("Knows_Person_Person.parquet", ["a.id", "b.id", "r.since"])]
      = some ("Knows_Person_Person.parquet", ["a.id", "b.id", "r.since"]) ∧
    ((edgeColInfo [("since", "DATE")] ["a.id", "b.id", "r.since"]).1.take 2
        = ["\"source\" BIGINT", "\"target\" BIGINT"] ∧
     (edgeColInfo [("since", "DATE")] ["a.id", "b.id", "r.since"]).2.take 2
        = ["source", "target"]) :=
  ⟨rfl, c3_edge_source_target_first
    [("Knows_Person_Person.parquet", ["a.id", "b.id", "r.since"])]
    "Knows" "Knows_Person_Person.parquet" ⟨"Person", "Person", [("since", "DATE")]⟩
    ["a.id", "b.id", "r.since"] rfl⟩

/-- C10: for every edge table, the generated INSERT statement's
inserted-column list and its SELECT expression list have equal lengths if
and only if the file contains exactly two columns whose prefix-stripped base
name is `id`; for any other count the generated statement is malformed
(column-count mismatch). -/
theorem c10_insert_select_lengths (schemaCols : List (String × String)) (cs : List String) :
    (edgeColInfo schemaCols cs).2.length = (edgeSelectParts cs).length
      ↔ cs.countP (fun c => pyLower (baseName c) == "id") = 2 := by
  rw [edgeColInfo_eq, edgeSelectParts_eq]
  simp only [List.length_append, List.length_map, List.length_cons, List.length_nil]
  have h := length_filter_edgeKeep cs
  omega

/-- C2: for every node table in the parsed schema with an existing backing
file `<name>.parquet`, the created table `nodes_<name>` has exactly the
file's columns, each renamed to its prefix-stripped base name, in
file-column order; each column's type is the mapped declared type of the
case-insensitively matching declared column, or `VARCHAR` when no declared
column matches. -/
theorem c2_node_table_columns (dir : String) (files : FileSys) (name : String)
    (spec : NodeSpec) (cs : List String)
    (hfile : lookupFile files (name ++ ".parquet") = some cs) :
    runNodeTable dir files (fun _ => false) (name, spec)
        = Except.ok (MatEvent.createdNode name cs) ∧
    (nodeColInfo spec.columns cs).2 = cs.map baseName ∧
    (nodeColInfo spec.columns cs).1
        = cs.map (fun c => "\"" ++ baseName c ++ "\" "
            ++ lookupDeclType spec.columns (baseName c)) ∧
    (∀ c ∈ cs, ∀ d,
        spec.columns.find? (fun p => pyLower p.1 == pyLower (baseName c)) = some d →
        lookupDeclType spec.columns (baseName c) = map_duckdb_type d.2) ∧
    (∀ c ∈ cs, (∀ d ∈ spec.columns, pyLower d.1 ≠ pyLower (baseName c)) →
        lookupDeclType spec.columns (baseName c) = "VARCHAR") := by
  refine ⟨?_, ?_, ?_, ?_, ?_⟩
  · rw [runNodeTable_ok dir files _ (fun s => rfl) (name, spec)]
    simp [nodeOutcome, hfile]
  · rw [nodeColInfo_eq]
  · rw [nodeColInfo_eq]
    rfl
  · intro c _ d hd
    unfold lookupDeclType
    rw [hd]
  · intro c _ hnone
    unfold lookupDeclType
    have hn : spec.columns.find? (fun p => pyLower p.1 == pyLower (baseName c)) = none := by
      rw [List.find?_eq_none]
      intro p hp hc
      exact hnone p hp (by simpa using hc)
    rw [hn]

/-- C2 witness: the `Person` node table of the spec scenario, backed by a
file with columns `a.id`, `a.name`. -/
theorem c2_witness :
    lookupFile [("Person.parquet", ["a.id", "a.name"])] ("Person" ++ ".parquet")
        = some ["a.id", "a.name"] ∧
    runNodeTable "kg" [("Person.parquet", ["a.id", "a.name"])] (fun _ => false)
        ("Person", ⟨[("id", "INT64"), ("name", "STRING")], "id"⟩)
        = Except.ok (MatEvent.createdNode "Person" ["a.id", "a.name"]) ∧
    (nodeColInfo [("id", "INT64"), ("name", "STRING")] ["a.id", "a.name"]).2
        = List.map baseName ["a.id", "a.name"] ∧
    (nodeColInfo [("id", "INT64"), ("name", "STRING")] ["a.id", "a.name"]).1
        = List.map (fun c => "\"" ++ baseName c ++ "\" "
            ++ lookupDeclType [("id", "INT64"), ("name", "STRING")] (baseName c))
            ["a.id", "a.name"] := by
  have h := c2_node_table_columns "kg" [("Person.parquet", ["a.id", "a.name"])] "Person"
    ⟨[("id", "INT64"), ("name", "STRING")], "id"⟩ ["a.id", "a.name"] rfl
  exact ⟨rfl, h.1, h.2.1, h.2.2.1⟩

/-- C1: for every edge table with an existing backing data file, a file
column whose base name is `id` is never emitted as a regular property column
of the output table; an `id` column with qualifier `a` is redirected into
the `source` slot and one with qualifier `b` into the `target` slot; every
other file column is mapped by its prefix-stripped base name; and a file
column named `id` with no recognizable endpoint prefix is passed through
verbatim into the generated SELECT list. -/
theorem c1_edge_id_columns (files : FileSys) (rel fname : String) (spec : EdgeSpec)
    (cs : List String) (hfile : edgeFileName rel spec files = some (fname, cs)) :
    (∀ c ∈ cs, pyLower (baseName c) = "id" →
        baseName c ∉ ((edgeColInfo spec.columns cs).2.drop 2)) ∧
    edgeSelectParts cs = cs.map edgeSelectPart ∧
    (∀ c ∈ cs, pyLower (baseName c) = "id" → colQual c = "a" →
        edgeSelectPart c = "\"" ++ c ++ "\" AS source") ∧
    (∀ c ∈ cs, pyLower (baseName c) = "id" → colQual c = "b" →
        edgeSelectPart c = "\"" ++ c ++ "\" AS target") ∧
    (∀ c ∈ cs, pyLower (baseName c) = "id" → colQual c ≠ "a" → colQual c ≠ "b" →
        edgeSelectPart c = "\"" ++ c ++ "\"") ∧
    (∀ c ∈ cs, pyLower (baseName c) ≠ "id" →
        edgeSelectPart c = "\"" ++ c ++ "\""
          ∧ baseName c ∈ (edgeColInfo spec.columns cs).2) := by
  refine ⟨?_, edgeSelectParts_eq cs, ?_, ?_, ?_, ?_⟩
  · intro c _ hid hmem
    rw [edgeColInfo_eq] at hmem
    have hmem' : baseName c ∈ (cs.filter edgeKeep).map baseName := by
      simpa using hmem
    obtain ⟨c', hc', heq⟩ := List.mem_map.mp hmem'
    have hkeep : edgeKeep c' = true := (List.mem_filter.mp hc').2
    have : ¬(pyLower (baseName c') = "id") := by
      simpa [edgeKeep] using hkeep
    rw [heq, hid] at this
    exact this rfl
  · intro c _ hid hq
    simp [edgeSelectPart, hid, hq]
  · intro c _ hid hq
    simp [edgeSelectPart, hid, hq]
  · intro c _ hid hqa hqb
    simp [edgeSelectPart, hid, hqa, hqb]
  · intro c hc hnid
    refine ⟨by simp [edgeSelectPart, hnid], ?_⟩
    rw [edgeColInfo_eq]
    refine List.mem_append_right _ ?_
    exact List.mem_map_of_mem baseName
      (List.mem_filter.mpr ⟨hc, by simp [edgeKeep, hnid]⟩)

/-- C1 witness: the `Knows` edge scenario with file columns
`a.id`, `b.id`, `r.since`. -/
theorem c1_witness :
    edgeFileName "Knows" ⟨"Person", "Person", [("since", "DATE")]⟩
        [("Knows_Person_Person.parquet", ["a.id", "b.id", "r.since"])]
      = some ("Knows_Person_Person.parquet", ["a.id", "b.id", "r.since"]) ∧
    edgeSelectParts ["a.id", "b.id", "r.since"]
      = List.map edgeSelectPart ["a.id", "b.id", "r.since"] ∧
    edgeSelectPart "a.id" = "\"a.id\" AS source" ∧
    edgeSelectPart "b.id" = "\"b.id\" AS target" ∧
    baseName "r.since"
      ∈ (edgeColInfo [("since", "DATE")] ["a.id", "b.id", "r.since"]).2 := by
  have h := c1_edge_id_columns
    [("Knows_Person_Person.parquet", ["a.id", "b.id", "r.since"])]
    "Knows" "Knows_Person_Person.parquet" ⟨"Person", "Person", [("since", "DATE")]⟩
    ["a.id", "b.id", "r.since"] rfl
  refine ⟨rfl, h.2.1, ?_, ?_, ?_⟩
  · exact h.2.2.1 "a.id" (by decide) (by decide) (by decide)
  · exact h.2.2.2.1 "b.id" (by decide) (by decide) (by decide)
  · exact (h.2.2.2.2.2 "r.since" (by decide) (by decide)).2

/-- C5 counterexample: the table `nodes_Foo` matches the `nodes_*` output
naming convention, yet the reset step does not drop it — the script only
drops a hard-coded list of six node tables. -/
theorem c5_counterexample :
    pyStartsWith "nodes_" "nodes_Foo" = true ∧
    resetStep ["nodes_Foo"] = ["nodes_Foo"] := by
  constructor
  · decide
  · decide

/-- C5 (amended): at the start of a run the reset step drops exactly the
tables of the hard-coded six-name node list that are present plus every
table whose name starts with `edges_`, and keeps every other table — in
particular a `nodes_*` table outside the hard-coded list is kept. -/
theorem c5_reset_drops_hardcoded (tables : List String) (t : String)
    (ht : t ∈ tables) :
    t ∉ resetStep tables
      ↔ (t ∈ hardcodedNodeDrops ∨ pyStartsWith "edges_" t = true) := by
  rw [resetStep_eq]
  rw [List.mem_filter]
  constructor
  · intro hnot
    by_cases hs : pyStartsWith "edges_" t = true
    · exact Or.inr hs
    · left
      by_contra hmem
      apply hnot
      refine ⟨ht, ?_⟩
      have hc : hardcodedNodeDrops.contains t = false := by
        simp [hmem]
      have hs' : pyStartsWith "edges_" t = false := by simpa using hs
      simp [hc, hs']
      exact hmem
  · intro hdrop hin
    obtain ⟨_, hpred⟩ := hin
    cases hdrop with
    | inl hmem =>
      have hc : hardcodedNodeDrops.contains t = true := by simp [hmem]
      rw [hc] at hpred
      simp at hpred
    | inr hs =>
      rw [hs] at hpred
      simp at hpred

/-- C5 witness: a concrete destination containing one non-hard-coded
`nodes_*` table and one `edges_*` table. -/
theorem c5_witness :
    "edges_X" ∈ ["nodes_Foo", "edges_X"] ∧
    ("edges_X" ∉ resetStep ["nodes_Foo", "edges_X"]
      ↔ ("edges_X" ∈ hardcodedNodeDrops ∨ pyStartsWith "edges_" "edges_X" = true)) :=
  ⟨by decide, c5_reset_drops_hardcoded ["nodes_Foo", "edges_X"] "edges_X" (by decide)⟩

/-- C6 counterexample: two node tables with existing files, and an engine
that fails on the first CREATE statement: the run aborts with the raised
error — it does not continue to the next table and produces no report of
failed tables. -/
theorem c6_counterexample :
    runMaterializer "d" [("A.parquet", ["id"]), ("B.parquet", ["id"])]
      (fun s => s == "CREATE TABLE nodes_A (\"id\" BIGINT);")
      [("A", ⟨[("id", "INT64")], "id"⟩), ("B", ⟨[("id", "INT64")], "id"⟩)] []
      = Except.error "CREATE TABLE nodes_A (\"id\" BIGINT);" := rfl

/-- C6 (amended): for every table — node or edge, at any position after
tables that processed without failure — whose create or insert statement
fails against the destination engine, the uncaught exception aborts the
entire run at that table: the result is the error of the failing create or
insert statement itself, later tables are not processed, and no per-table
MaterializationError or failed-table report exists. -/
theorem c6_failure_aborts (dir : String) (files : FileSys) (failsOn : String → Bool)
    (cs : List String) (fn : String)
    (nts nts1 nts2 : List (String × NodeSpec)) (np : String × NodeSpec)
    (ets ets1 ets2 : List (String × EdgeSpec)) (ep : String × EdgeSpec) :
    ((∀ q ∈ nts1, ∀ s, runNodeTable dir files failsOn q ≠ Except.error s) →
     lookupFile files (np.1 ++ ".parquet") = some cs →
     failsOn (nodeCreateSQL np.1 (nodeColInfo np.2.columns cs).1) = true →
     runMaterializer dir files failsOn (nts1 ++ np :: nts2) ets
       = Except.error (nodeCreateSQL np.1 (nodeColInfo np.2.columns cs).1)) ∧
    ((∀ q ∈ nts1, ∀ s, runNodeTable dir files failsOn q ≠ Except.error s) →
     lookupFile files (np.1 ++ ".parquet") = some cs →
     failsOn (nodeCreateSQL np.1 (nodeColInfo np.2.columns cs).1) = false →
     failsOn (nodeInsertSQL (dir ++ "/" ++ np.1 ++ ".parquet") np.1
         (nodeColInfo np.2.columns cs).2 cs) = true →
     runMaterializer dir files failsOn (nts1 ++ np :: nts2) ets
       = Except.error (nodeInsertSQL (dir ++ "/" ++ np.1 ++ ".parquet") np.1
           (nodeColInfo np.2.columns cs).2 cs)) ∧
    ((∀ q ∈ nts, ∀ s, runNodeTable dir files failsOn q ≠ Except.error s) →
     (∀ q ∈ ets1, ∀ s, runEdgeTable dir files failsOn q ≠ Except.error s) →
     edgeFileName ep.1 ep.2 files = some (fn, cs) →
     failsOn (edgeCreateSQL ep.1 (edgeColInfo ep.2.columns cs).1) = true →
     runMaterializer dir files failsOn nts (ets1 ++ ep :: ets2)
       = Except.error (edgeCreateSQL ep.1 (edgeColInfo ep.2.columns cs).1)) ∧
    ((∀ q ∈ nts, ∀ s, runNodeTable dir files failsOn q ≠ Except.error s) →
     (∀ q ∈ ets1, ∀ s, runEdgeTable dir files failsOn q ≠ Except.error s) →
     edgeFileName ep.1 ep.2 files = some (fn, cs) →
     failsOn (edgeCreateSQL ep.1 (edgeColInfo ep.2.columns cs).1) = false →
     failsOn (edgeInsertSQL (dir ++ "/" ++ fn) ep.1 (edgeColInfo ep.2.columns cs).2
         (edgeSelectParts cs)) = true →
     runMaterializer dir files failsOn nts (ets1 ++ ep :: ets2)
       = Except.error (edgeInsertSQL (dir ++ "/" ++ fn) ep.1
           (edgeColInfo ep.2.columns cs).2 (edgeSelectParts cs))) := by
  refine ⟨?_, ?_, ?_, ?_⟩
  · intro hpre hfile hc
    have hx : runNodeTable dir files failsOn np
        = Except.error (nodeCreateSQL np.1 (nodeColInfo np.2.columns cs).1) := by
      unfold runNodeTable
      simp [hfile, hc]
    have h1 := runList_error_at (runNodeTable dir files failsOn) nts1 np nts2 _ hpre hx
    unfold runMaterializer
    rw [h1]
  · intro hpre hfile hc hi
    have hx : runNodeTable dir files failsOn np
        = Except.error (nodeInsertSQL (dir ++ "/" ++ np.1 ++ ".parquet") np.1
            (nodeColInfo np.2.columns cs).2 cs) := by
      unfold runNodeTable
      simp [hfile, hc, hi]
    have h1 := runList_error_at (runNodeTable dir files failsOn) nts1 np nts2 _ hpre hx
    unfold runMaterializer
    rw [h1]
  · intro hpreN hpreE hfile hc
    obtain ⟨ne, hne⟩ := runList_ok_of_no_error (runNodeTable dir files failsOn) nts hpreN
    have hx : runEdgeTable dir files failsOn ep
        = Except.error (edgeCreateSQL ep.1 (edgeColInfo ep.2.columns cs).1) := by
      unfold runEdgeTable
      simp [hfile, hc]
    have h1 := runList_error_at (runEdgeTable dir files failsOn) ets1 ep ets2 _ hpreE hx
    unfold runMaterializer
    rw [hne, h1]
  · intro hpreN hpreE hfile hc hi
    obtain ⟨ne, hne⟩ := runList_ok_of_no_error (runNodeTable dir files failsOn) nts hpreN
    have hx : runEdgeTable dir files failsOn ep
        = Except.error (edgeInsertSQL (dir ++ "/" ++ fn) ep.1
            (edgeColInfo ep.2.columns cs).2 (edgeSelectParts cs)) := by
      unfold runEdgeTable
      simp [hfile, hc, hi]
    have h1 := runList_error_at (runEdgeTable dir files failsOn) ets1 ep ets2 _ hpreE hx
    unfold runMaterializer
    rw [hne, h1]

/-- C6 witness: the amended theorem applied twice — a node table `B` whose
create fails after node table `A` was processed without failure, and an
edge table `R` whose insert fails after node table `A` was processed
without failure. -/
theorem c6_witness :
    lookupFile [("A.parquet", ["id"]), ("B.parquet", ["id"])] ("B" ++ ".parquet")
        = some ["id"] ∧
    (fun s => s == "CREATE TABLE nodes_B (\"id\" BIGINT);")
        (nodeCreateSQL "B" (nodeColInfo [("id", "INT64")] ["id"]).1) = true ∧
    runMaterializer "d" [("A.parquet", ["id"]), ("B.parquet", ["id"])]
        (fun s => s == "CREATE TABLE nodes_B (\"id\" BIGINT);")
        [("A", ⟨[("id", "INT64")], "id"⟩), ("B", ⟨[("id", "INT64")], "id"⟩)] []
      = Except.error (nodeCreateSQL "B" (nodeColInfo [("id", "INT64")] ["id"]).1) ∧
    edgeFileName "R" ⟨"X", "Y", []⟩ [("A.parquet", ["id"]), ("R_X_Y.parquet", ["a.id", "b.id"])]
        = some ("R_X_Y.parquet", ["a.id", "b.id"]) ∧
    (fun s => s == edgeInsertSQL ("d" ++ "/" ++ "R_X_Y.parquet") "R"
        (edgeColInfo [] ["a.id", "b.id"]).2 (edgeSelectParts ["a.id", "b.id"]))
        (edgeCreateSQL "R" (edgeColInfo [] ["a.id", "b.id"]).1) = false ∧
    runMaterializer "d" [("A.parquet", ["id"]), ("R_X_Y.parquet", ["a.id", "b.id"])]
        (fun s => s == edgeInsertSQL ("d" ++ "/" ++ "R_X_Y.parquet") "R"
            (edgeColInfo [] ["a.id", "b.id"]).2 (edgeSelectParts ["a.id", "b.id"]))
        [("A", ⟨[("id", "INT64")], "id"⟩)] [("R", ⟨"X", "Y", []⟩)]
      = Except.error (edgeInsertSQL ("d" ++ "/" ++ "R_X_Y.parquet") "R"
          (edgeColInfo [] ["a.id", "b.id"]).2 (edgeSelectParts ["a.id", "b.id"])) := by
  have hA1 : runNodeTable "d" [("A.parquet", ["id"]), ("B.parquet", ["id"])]
      (fun s => s == "CREATE TABLE nodes_B (\"id\" BIGINT);")
      ("A", ⟨[("id", "INT64")], "id"⟩)
      = Except.ok (MatEvent.createdNode "A" ["id"]) := rfl
  have hA2 : runNodeTable "d" [("A.parquet", ["id"]), ("R_X_Y.parquet", ["a.id", "b.id"])]
      (fun s => s == edgeInsertSQL ("d" ++ "/" ++ "R_X_Y.parquet") "R"
          (edgeColInfo [] ["a.id", "b.id"]).2 (edgeSelectParts ["a.id", "b.id"]))
      ("A", ⟨[("id", "INT64")], "id"⟩)
      = Except.ok (MatEvent.createdNode "A" ["id"]) := rfl
  have h1 := (c6_failure_aborts "d" [("A.parquet", ["id"]), ("B.parquet", ["id"])]
      (fun s => s == "CREATE TABLE nodes_B (\"id\" BIGINT);") ["id"] ""
      [] [("A", ⟨[("id", "INT64")], "id"⟩)] [] ("B", ⟨[("id", "INT64")], "id"⟩)
      [] [] [] ("R", ⟨"X", "Y", []⟩)).1
    (by
      intro q hq s hs
      have hq' : q = ("A", ⟨[("id", "INT64")], "id"⟩) := by simpa using hq
      rw [hq', hA1] at hs
      exact Except.noConfusion hs)
    rfl (by decide)
  have h2 := (c6_failure_aborts "d" [("A.parquet", ["id"]), ("R_X_Y.parquet", ["a.id", "b.id"])]
      (fun s => s == edgeInsertSQL ("d" ++ "/" ++ "R_X_Y.parquet") "R"
          (edgeColInfo [] ["a.id", "b.id"]).2 (edgeSelectParts ["a.id", "b.id"]))
      ["a.id", "b.id"] "R_X_Y.parquet"
      [("A", ⟨[("id", "INT64")], "id"⟩)] [] [] ("B", ⟨[("id", "INT64")], "id"⟩)
      [] [] [] ("R", ⟨"X", "Y", []⟩)).2.2.2
    (by
      intro q hq s hs
      have hq' : q = ("A", ⟨[("id", "INT64")], "id"⟩) := by simpa using hq
      rw [hq', hA2] at hs
      exact Except.noConfusion hs)
    (by intro q hq s hs; simp at hq)
    rfl (by decide) (by decide)
  exact ⟨rfl, by decide, h1, rfl, by decide, h2⟩

/-- C7: for every declared table whose backing data file is absent (for node
tables `<name>.parquet`; for edge tables both candidates
`<rel>_<from>_<to>.parquet` and `<rel>.parquet`, tried in that order), the
materializer records a warning, creates no output table for it, and the run
continues to the remaining tables and still completes (stated here for runs
where no statement execution fails, so that the missing file is the only
disturbance). -/
theorem c7_missing_file_skips (dir : String) (files : FileSys) (failsOn : String → Bool)
    (nts : List (String × NodeSpec)) (ets : List (String × EdgeSpec))
    (hok : ∀ s, failsOn s = false)
    (hndE : (ets.map Prod.fst).Nodup) :
    runMaterializer dir files failsOn nts ets
      = Except.ok (nts.map (nodeOutcome files) ++ ets.map (edgeOutcome files)) ∧
    (∀ rel spec, edgeFileName rel spec files = none ↔
        (lookupFile files
            (rel ++ "_" ++ spec.fromNode ++ "_" ++ spec.toNode ++ ".parquet") = none
          ∧ lookupFile files (rel ++ ".parquet") = none)) ∧
    (∀ name spec, (name, spec) ∈ nts → lookupFile files (name ++ ".parquet") = none →
        MatEvent.warnNode name
            ∈ nts.map (nodeOutcome files) ++ ets.map (edgeOutcome files)
          ∧ ∀ cs, MatEvent.createdNode name cs
              ∉ nts.map (nodeOutcome files) ++ ets.map (edgeOutcome files)) ∧
    (∀ rel spec, (rel, spec) ∈ ets → edgeFileName rel spec files = none →
        MatEvent.warnEdge rel
            ∈ nts.map (nodeOutcome files) ++ ets.map (edgeOutcome files)
          ∧ ∀ fn cs, MatEvent.createdEdge rel fn cs
              ∉ nts.map (nodeOutcome files) ++ ets.map (edgeOutcome files)) ∧
    (∀ name spec cs, (name, spec) ∈ nts →
        lookupFile files (name ++ ".parquet") = some cs →
        MatEvent.createdNode name cs
          ∈ nts.map (nodeOutcome files) ++ ets.map (edgeOutcome files)) ∧
    (∀ rel spec fn cs, (rel, spec) ∈ ets →
        edgeFileName rel spec files = some (fn, cs) →
        MatEvent.createdEdge rel fn cs
          ∈ nts.map (nodeOutcome files) ++ ets.map (edgeOutcome files)) := by
  refine ⟨runMaterializer_ok dir files failsOn nts ets hok, ?_, ?_, ?_, ?_, ?_⟩
  · intro rel spec
    unfold edgeFileName
    cases l1 : lookupFile files
        (rel ++ "_" ++ spec.fromNode ++ "_" ++ spec.toNode ++ ".parquet") with
    | some cs => simp [l1]
    | none =>
      cases l2 : lookupFile files (rel ++ ".parquet") with
      | some cs => simp [l1, l2]
      | none => simp [l1, l2]
  · intro name spec hmem hmiss
    constructor
    · apply List.mem_append_left
      exact List.mem_map.mpr ⟨(name, spec), hmem, by simp [nodeOutcome, hmiss]⟩
    · intro cs hmemc
      rcases List.mem_append.mp hmemc with hL | hR
      · obtain ⟨p, hp, heq⟩ := List.mem_map.mp hL
        obtain ⟨pn, ps⟩ := p
        unfold nodeOutcome at heq
        cases hlf : lookupFile files (pn ++ ".parquet") with
        | none => rw [hlf] at heq; simp at heq
        | some cs' =>
          rw [hlf] at heq
          simp only [MatEvent.createdNode.injEq] at heq
          obtain ⟨h1, _⟩ := heq
          subst h1
          rw [hmiss] at hlf
          exact Option.noConfusion hlf
      · obtain ⟨q, hq, heq⟩ := List.mem_map.mp hR
        unfold edgeOutcome at heq
        cases hef : edgeFileName q.1 q.2 files with
        | none => rw [hef] at heq; simp at heq
        | some fc =>
          rw [hef] at heq
          obtain ⟨fn', cs'⟩ := fc
          simp at heq
  · intro rel spec hmem hmiss
    constructor
    · apply List.mem_append_right
      exact List.mem_map.mpr ⟨(rel, spec), hmem, by simp [edgeOutcome, hmiss]⟩
    · intro fn cs hmemc
      rcases List.mem_append.mp hmemc with hL | hR
      · obtain ⟨p, hp, heq⟩ := List.mem_map.mp hL
        unfold nodeOutcome at heq
        cases hlf : lookupFile files (p.1 ++ ".parquet") with
        | none => rw [hlf] at heq; simp at heq
        | some cs' => rw [hlf] at heq; simp at heq
      · obtain ⟨q, hq, heq⟩ := List.mem_map.mp hR
        obtain ⟨qr, qs⟩ := q
        unfold edgeOutcome at heq
        cases hef : edgeFileName qr qs files with
        | none => rw [hef] at heq; simp at heq
        | some fc =>
          rw [hef] at heq
          obtain ⟨fn', cs'⟩ := fc
          simp only [MatEvent.createdEdge.injEq] at heq
          obtain ⟨h1, _, _⟩ := heq
          subst h1
          have hqs : qs = spec := assoc_nodup_value_eq ets hndE qr qs spec hq hmem
          rw [hqs, hmiss] at hef
          exact Option.noConfusion hef
  · intro name spec cs hmem hit
    apply List.mem_append_left
    exact List.mem_map.mpr ⟨(name, spec), hmem, by simp [nodeOutcome, hit]⟩
  · intro rel spec fn cs hmem hit
    apply List.mem_append_right
    exact List.mem_map.mpr ⟨(rel, spec), hmem, by simp [edgeOutcome, hit]⟩

/-- C7 witness: node table `A` has no backing file and is skipped with a
warning, node table `B` and the edge table are unaffected; the edge table
`R` also has no backing file under either candidate name. -/
theorem c7_witness :
    runMaterializer "d" [("B.parquet", ["id"])] (fun _ => false)
        [("A", ⟨[("id", "INT64")], "id"⟩), ("B", ⟨[("id", "INT64")], "id"⟩)]
        [("R", ⟨"A", "B", []⟩)]
      = Except.ok
          ([("A", (⟨[("id", "INT64")], "id"⟩ : NodeSpec)),
            ("B", ⟨[("id", "INT64")], "id"⟩)].map (nodeOutcome [("B.parquet", ["id"])])
            ++ [("R", (⟨"A", "B", []⟩ : EdgeSpec))].map
                (edgeOutcome [("B.parquet", ["id"])])) ∧
    MatEvent.warnNode "A"
      ∈ [("A", (⟨[("id", "INT64")], "id"⟩ : NodeSpec)),
          ("B", ⟨[("id", "INT64")], "id"⟩)].map (nodeOutcome [("B.parquet", ["id"])])
          ++ [("R", (⟨"A", "B", []⟩ : EdgeSpec))].map
              (edgeOutcome [("B.parquet", ["id"])]) ∧
    MatEvent.createdNode "A" ["id"]
      ∉ [("A", (⟨[("id", "INT64")], "id"⟩ : NodeSpec)),
          ("B", ⟨[("id", "INT64")], "id"⟩)].map (nodeOutcome [("B.parquet", ["id"])])
          ++ [("R", (⟨"A", "B", []⟩ : EdgeSpec))].map
              (edgeOutcome [("B.parquet", ["id"])]) ∧
    MatEvent.createdNode "B" ["id"]
      ∈ [("A", (⟨[("id", "INT64")], "id"⟩ : NodeSpec)),
          ("B", ⟨[("id", "INT64")], "id"⟩)].map (nodeOutcome [("B.parquet", ["id"])])
          ++ [("R", (⟨"A", "B", []⟩ : EdgeSpec))].map
              (edgeOutcome [("B.parquet", ["id"])]) ∧
    MatEvent.warnEdge "R"
      ∈ [("A", (⟨[("id", "INT64")], "id"⟩ : NodeSpec)),
          ("B", ⟨[("id", "INT64")], "id"⟩)].map (nodeOutcome [("B.parquet", ["id"])])
          ++ [("R", (⟨"A", "B", []⟩ : EdgeSpec))].map
              (edgeOutcome [("B.parquet", ["id"])]) := by
  have h := c7_missing_file_skips "d" [("B.parquet", ["id"])] (fun _ => false)
    [("A", ⟨[("id", "INT64")], "id"⟩), ("B", ⟨[("id", "INT64")], "id"⟩)]
    [("R", ⟨"A", "B", []⟩)] (fun s => rfl) (by decide)
  refine ⟨h.1, ?_, ?_, ?_, ?_⟩
  · exact (h.2.2.1 "A" ⟨[("id", "INT64")], "id"⟩ (by decide) rfl).1
  · exact (h.2.2.1 "A" ⟨[("id", "INT64")], "id"⟩ (by decide) rfl).2 ["id"]
  · exact h.2.2.2.2.1 "B" ⟨[("id", "INT64")], "id"⟩ ["id"] (by decide) rfl
  · exact (h.2.2.2.1 "R" ⟨"A", "B", []⟩ (by decide) rfl).1

/-- C8 counterexample: parsing the empty DDL text does not fail — it
returns the empty SchemaDefinition — whereas the claim requires parsing to
fail exactly on unreadable (empty) text.  No failure path exists in the
parsing logic at all (only the file read preceding it can raise, with an
OS-level error, not a MalformedSchemaError). -/
theorem c8_counterexample : parse_schema_cypher "" = ([], []) := rfl

/-- C8 (amended): parsing never raises: every DDL text — the empty text
included — yields a SchemaDefinition; a node-table (resp. edge-table) entry
named `n` exists exactly when some declaration in the text matches the
node (resp. rel) pattern with that name, so declarations matching neither
pattern are skipped silently and contribute nothing. -/
theorem c8_parse_total (content : String) (n : String) :
    parse_schema_cypher "" = ([], []) ∧
    ((lookupA (parse_schema_cypher content).1 n).isSome = true
        ↔ ∃ q ∈ findNodeMatches content, q.1 = n) ∧
    ((lookupA (parse_schema_cypher content).2 n).isSome = true
        ↔ ∃ q ∈ findRelMatches content, q.1 = n) := by
  refine ⟨rfl, ?_, ?_⟩
  · exact lookupA_foldlUpd_isSome Prod.fst (fun q => mkNodeSpec q.2)
      (findNodeMatches content) n
  · exact lookupA_foldlUpd_isSome Prod.fst (fun q => mkEdgeSpec q.2)
      (findRelMatches content) n

/-- C9: for every DDL text containing two declarations of the same kind
with the same table name, parse returns exactly one entry for that name,
and that entry reflects the later (last-matching) declaration — mapping
overwrite semantics, not append. -/
theorem c9_duplicate_overwrite (content : String) (n r : String) :
    (2 ≤ ((findNodeMatches content).filter (fun q => q.1 == n)).length →
      countKey (parse_schema_cypher content).1 n = 1 ∧
      ∀ q0, ((findNodeMatches content).filter (fun q => q.1 == n)).getLast? = some q0 →
        lookupA (parse_schema_cypher content).1 n = some (mkNodeSpec q0.2)) ∧
    (2 ≤ ((findRelMatches content).filter (fun q => q.1 == r)).length →
      countKey (parse_schema_cypher content).2 r = 1 ∧
      ∀ q0, ((findRelMatches content).filter (fun q => q.1 == r)).getLast? = some q0 →
        lookupA (parse_schema_cypher content).2 r = some (mkEdgeSpec q0.2)) := by
  constructor
  · intro hn
    have hfil : (findNodeMatches content).filter (fun q => q.1 == n) ≠ [] := by
      intro hnil
      rw [hnil] at hn
      simp at hn
    obtain ⟨q0, hq0⟩ := Option.isSome_iff_exists.mp (List.getLast?_isSome.mpr hfil)
    have hlast := lookupA_foldlUpd_last Prod.fst (fun q => mkNodeSpec q.2)
      (findNodeMatches content) [] n q0 hq0
    constructor
    · have hle := countKey_foldlUpd_le Prod.fst (fun q => mkNodeSpec q.2)
        (findNodeMatches content) [] (fun j => by simp [countKey]) n
      have hge : 1 ≤ countKey (foldlUpd Prod.fst (fun q => mkNodeSpec q.2)
          (findNodeMatches content) []) n := by
        apply countKey_pos_of_lookupA
        rw [hlast]
        rfl
      have hpe : countKey (parse_schema_cypher content).1 n
          = countKey (foldlUpd Prod.fst (fun q => mkNodeSpec q.2)
              (findNodeMatches content) []) n := rfl
      omega
    · intro q1 hq1
      rw [hq0] at hq1
      injection hq1 with h1
      subst h1
      exact hlast
  · intro hr
    have hfil : (findRelMatches content).filter (fun q => q.1 == r) ≠ [] := by
      intro hnil
      rw [hnil] at hr
      simp at hr
    obtain ⟨q0, hq0⟩ := Option.isSome_iff_exists.mp (List.getLast?_isSome.mpr hfil)
    have hlast := lookupA_foldlUpd_last Prod.fst (fun q => mkEdgeSpec q.2)
      (findRelMatches content) [] r q0 hq0
    constructor
    · have hle := countKey_foldlUpd_le Prod.fst (fun q => mkEdgeSpec q.2)
        (findRelMatches content) [] (fun j => by simp [countKey]) r
      have hge : 1 ≤ countKey (foldlUpd Prod.fst (fun q => mkEdgeSpec q.2)
          (findRelMatches content) []) r := by
        apply countKey_pos_of_lookupA
        rw [hlast]
        rfl
      have hpe : countKey (parse_schema_cypher content).2 r
          = countKey (foldlUpd Prod.fst (fun q => mkEdgeSpec q.2)
              (findRelMatches content) []) r := rfl
      omega
    · intro q1 hq1
      rw [hq0] at hq1
      injection hq1 with h1
      subst h1
      exact hlast

set_option maxRecDepth 100000 in
/-- C9 witness: a DDL text with two `Foo` node declarations and two `R`
rel declarations; the parse result keeps one entry each, reflecting the
later declaration. -/
theorem c9_witness :
    (2 ≤ ((findNodeMatches
        "CREATE NODE TABLE Foo (a INT64) CREATE NODE TABLE Foo (b STRING) CREATE REL TABLE R (FROM X TO Y) CREATE REL TABLE R (FROM X TO Y, d DATE)").filter
          (fun q => q.1 == "Foo")).length) ∧
    (2 ≤ ((findRelMatches
        "CREATE NODE TABLE Foo (a INT64) CREATE NODE TABLE Foo (b STRING) CREATE REL TABLE R (FROM X TO Y) CREATE REL TABLE R (FROM X TO Y, d DATE)").filter
          (fun q => q.1 == "R")).length) ∧
    countKey (parse_schema_cypher
        "CREATE NODE TABLE Foo (a INT64) CREATE NODE TABLE Foo (b STRING) CREATE REL TABLE R (FROM X TO Y) CREATE REL TABLE R (FROM X TO Y, d DATE)").1
        "Foo" = 1 ∧
    countKey (parse_schema_cypher
        "CREATE NODE TABLE Foo (a INT64) CREATE NODE TABLE Foo (b STRING) CREATE REL TABLE R (FROM X TO Y) CREATE REL TABLE R (FROM X TO Y, d DATE)").2
        "R" = 1 ∧
    lookupA (parse_schema_cypher
        "CREATE NODE TABLE Foo (a INT64) CREATE NODE TABLE Foo (b STRING) CREATE REL TABLE R (FROM X TO Y) CREATE REL TABLE R (FROM X TO Y, d DATE)").1
        "Foo" = some (mkNodeSpec "b STRING") ∧
    lookupA (parse_schema_cypher
        "CREATE NODE TABLE Foo (a INT64) CREATE NODE TABLE Foo (b STRING) CREATE REL TABLE R (FROM X TO Y) CREATE REL TABLE R (FROM X TO Y, d DATE)").2
        "R" = some (mkEdgeSpec ("X", "Y", ", d DATE")) := by
  have h := c9_duplicate_overwrite
    "CREATE NODE TABLE Foo (a INT64) CREATE NODE TABLE Foo (b STRING) CREATE REL TABLE R (FROM X TO Y) CREATE REL TABLE R (FROM X TO Y, d DATE)"
    "Foo" "R"
  have hn := h.1 (by decide)
  have hr := h.2 (by decide)
  exact ⟨by decide, by decide, hn.1, hr.1,
    hn.2 ("Foo", "b STRING") (by decide),
    hr.2 ("R", "X", "Y", ", d DATE") (by decide)⟩

end SmallKG
